import Mathlib

/-!
Verification of the pagination engine of the payroc-sdk-js repository.

The source contains two pager implementations:
* the auth-refresh variant (class PayrocPager with an AuthProvider and the
  module-level parseHttpResponse / getLinkUri / cloneRequestWithNewUri),
  embedded below in namespace AuthRefresh;
* the pluggable-parser variant (class PayrocPager with a parser supplied at
  construction, its static parsePayrocResponse / getLinkUri /
  cloneRequestWithNewUri), embedded below in namespace Pluggable.

Decoded response bodies are modelled as JavaScript-like values (JValue);
property access follows JavaScript semantics, in particular reading a
property of null or undefined throws a TypeError, which the parsers can
therefore surface.  Pager objects are modelled as explicit state records,
method calls as state-passing functions that also return the list of
requests handed to the page fetcher (so that fetch counts are observable)
and the error thrown, if any.
-/

set_option autoImplicit false

/-- Error raised by the JavaScript runtime while a parser runs; the only
relevant case is the TypeError raised by property access on null or
undefined. -/
inductive JsError where
  | typeError
deriving DecidableEq

/-- JSON-like runtime values: the shapes a decoded response body (or any of
its fields) may take at run time. -/
inductive JValue where
  | null
  | undefined
  | bool (b : Bool)
  | num (n : Int)
  | str (s : String)
  | arr (elems : List JValue)
  | obj (fields : List (String × JValue))

namespace JValue

/-- Property access v[k] with JavaScript semantics: reading a property of
null or undefined throws a TypeError; reading an absent property of an
object, or any property of a primitive or an array, yields undefined. -/
def getField : JValue → String → Except JsError JValue
  | .null, _ => .error .typeError
  | .undefined, _ => .error .typeError
  | .obj fields, k => .ok (((fields.find? (fun p => p.1 == k)).map (fun p => p.2)).getD .undefined)
  | _, _ => .ok .undefined

/-- JavaScript truthiness of a value. -/
def truthy : JValue → Bool
  | .null => false
  | .undefined => false
  | .bool b => b
  | .num n => n != 0
  | .str s => s != ""
  | .arr _ => true
  | .obj _ => true

/-- Array.isArray. -/
def isArray : JValue → Bool
  | .arr _ => true
  | _ => false

/-- Whether the value is null or undefined (the two values the ?? operator
and a loose != null comparison treat specially). -/
def nullish : JValue → Bool
  | .null => true
  | .undefined => true
  | _ => false

/-- JavaScript strict equality against the empty string: v === "" holds
exactly for the string value "". -/
def isEmptyStr : JValue → Bool
  | .str s => s == ""
  | _ => false

end JValue

/-- Header map as the JavaScript object holding a request's headers:
an association list of header name / value entries. -/
abbrev Headers := List (String × String)

/-- Lookup of a header by name: the first entry with the given name. -/
def hLookup : Headers → String → Option String
  | [], _ => none
  | p :: ps, k => if p.1 = k then some p.2 else hLookup ps k

/-- Transport-level response metadata stored by the pager. -/
structure RawResponse where
  status : Int
deriving DecidableEq

/-- Request descriptor: the shape of Fetcher.Args relevant to pagination.
It has a URI, a structured query-parameter map, and further fields (method,
headers, body, timeout) that the object spread in the request cloners copies
unchanged.  The URI slot holds a JValue because the pluggable-parser variant
can write a non-string href into it. -/
structure FetcherArgs where
  url : JValue
  method : String
  headers : Headers
  queryParameters : Option (List (String × String))
  body : Option JValue
  timeoutMs : Option Int

/-- Result of AuthProvider.getAuthRequest: a header map whose values may be
individually undefined. -/
structure AuthRequest where
  headers : List (String × Option String)

/-- Modelled from the spec: mergeOnlyDefinedHeaders is imported by the
auth-refresh pager from the headers module, whose source is not among the
pagination sources; per the spec, only the defined header values returned by
the Auth Refresher take part in the merge. -/
def mergeOnlyDefinedHeaders (hs : List (String × Option String)) : Headers :=
  hs.filterMap (fun p => p.2.map (fun v => (p.1, v)))

/-- Modelled from the spec: mergeHeaders is imported by the auth-refresh
pager from the headers module, whose source is not among the pagination
sources; per the spec, the refreshed values are merged into the existing
headers and take precedence over same-named entries, while headers absent
from the refreshed set are preserved. -/
def mergeHeaders (base extra : Headers) : Headers :=
  base.filter (fun p => (hLookup extra p.1).isNone) ++ extra

/-- Error thrown by a pager operation: new Error(msg), or a JavaScript
runtime error escaping the default parser. -/
inductive PageError where
  | thrown (msg : String)
  | jsError (e : JsError)
deriving DecidableEq

namespace AuthRefresh

/-- Loop body of getLinkUri from the auth-refresh pager module: scan the
links array for the first link whose rel strictly equals the wanted
relation and whose href is a string of positive length.  Property access on
a null or undefined array element throws. -/
def findLink (rel : String) : List JValue → Except JsError (Option String)
  | [] => .ok none
  | l :: ls =>
    match l.getField "rel" with
    | .error e => .error e
    | .ok (.str r) =>
      if r = rel then
        match l.getField "href" with
        | .error e => .error e
        | .ok (.str s) => if 0 < s.length then .ok (some s) else findLink rel ls
        | .ok _ => findLink rel ls
      else findLink rel ls
    | .ok _ => findLink rel ls

/-- Embedding of getLinkUri (auth-refresh variant): a missing, falsy or
non-array links field yields null; otherwise the array is scanned.  Arrays
are always truthy, so the truthiness test of the source collapses into the
array match. -/
def getLinkUri (json : JValue) (rel : String) : Except JsError (Option String) :=
  match json.getField "links" with
  | .error e => .error e
  | .ok (.arr ls) => findLink rel ls
  | .ok _ => .ok none

/-- Embedding of cloneRequestWithNewUri (auth-refresh variant): spread the
request, overwrite the url, and clear the query parameters. -/
def cloneRequestWithNewUri (request : FetcherArgs) (newUri : String) : FetcherArgs :=
  { request with url := .str newUri, queryParameters := none }

/-- Follow-up request derivation in parseHttpResponse: the source guards the
clone with the truthiness of the uri string, so an empty string yields no
request. -/
def deriveRequest (request : FetcherArgs) : Option String → Option FetcherArgs
  | some s => if s = "" then none else some (cloneRequestWithNewUri request s)
  | none => none

/-- Result record of parseHttpResponse (auth-refresh variant). -/
structure Parsed where
  nextRequest : Option FetcherArgs
  hasNextPage : Bool
  previousRequest : Option FetcherArgs
  hasPreviousPage : Bool
  items : JValue

/-- Embedding of parseHttpResponse (auth-refresh variant): parse the
previous link, then the next link, then read the data field, defaulting a
null or undefined data field to an empty array. -/
def parseHttpResponse (request : FetcherArgs) (data : JValue) : Except JsError Parsed :=
  match getLinkUri data "previous" with
  | .error e => .error e
  | .ok prevUri =>
    match getLinkUri data "next" with
    | .error e => .error e
    | .ok nextUri =>
      match data.getField "data" with
      | .error e => .error e
      | .ok d =>
        .ok { nextRequest := deriveRequest request nextUri
              hasNextPage := nextUri.isSome
              previousRequest := deriveRequest request prevUri
              hasPreviousPage := prevUri.isSome
              items := if d.nullish then JValue.arr [] else d }

/-- Structured failure returned by the fetcher (Fetcher.Error): a reason
string, with a status code that is meaningful when the reason is
"status-code". -/
structure FetcherError where
  reason : String
  statusCode : Int
deriving DecidableEq

/-- Failure description built by the pager: the HTTP status when the
failure is status-based, otherwise the transport-failure reason. -/
def failureReason (e : FetcherError) : String :=
  if e.reason = "status-code" then "HTTP " ++ toString e.statusCode else e.reason

/-- External collaborators of the auth-refresh pager: the page fetcher, and
the optional auth provider.  The auth provider is modelled as a function of
the invocation index, so that each getAuthRequest call can return fresh
headers (its most recent return value). -/
structure Env where
  fetch : FetcherArgs → Except FetcherError (JValue × RawResponse)
  auth : Option (Nat → AuthRequest)

/-- Observable interaction record: every request handed to the fetcher, in
order, and the number of auth-provider invocations so far. -/
structure Trace where
  sent : List FetcherArgs
  authCalls : Nat

/-- Page State of the auth-refresh pager (the mutable fields of the class). -/
structure PagerState where
  response : JValue
  rawResponse : RawResponse
  data : JValue
  hasNextPage : Bool
  hasPreviousPage : Bool
  nextRequest : Option FetcherArgs
  previousRequest : Option FetcherArgs

/-- Auth-refresh step of sendRequestAndHandleResponse: when an auth provider
is configured, obtain the current auth headers and merge them into the
request's headers, the refreshed values taking precedence. -/
def refreshAuth (env : Env) (tr : Trace) (request : FetcherArgs) : FetcherArgs × Trace :=
  match env.auth with
  | some authProvider =>
    let authRequest := authProvider tr.authCalls
    ({ request with
         headers := mergeHeaders request.headers (mergeOnlyDefinedHeaders authRequest.headers) },
     { tr with authCalls := tr.authCalls + 1 })
  | none => (request, tr)

/-- Embedding of sendRequestAndHandleResponse (auth-refresh variant).  The
returned state is the object's state when the method finishes, whether it
returns normally (error component none) or throws (error component some):
all throws of the source occur before the first field assignment, and the
assignments then replace every field. -/
def sendRequestAndHandleResponse (env : Env) (tr : Trace) (p : PagerState)
    (request : FetcherArgs) : Trace × PagerState × Option PageError :=
  let rt := refreshAuth env tr request
  let sentRequest := rt.1
  let tr := { rt.2 with sent := rt.2.sent ++ [sentRequest] }
  match env.fetch sentRequest with
  | .error e => (tr, p, some (.thrown ("Failed to fetch page: " ++ failureReason e)))
  | .ok (data, rawResponse) =>
    match parseHttpResponse sentRequest data with
    | .error je => (tr, p, some (.jsError je))
    | .ok parsed =>
      (tr,
       { response := data
         rawResponse := rawResponse
         data := parsed.items
         hasNextPage := parsed.hasNextPage
         hasPreviousPage := parsed.hasPreviousPage
         nextRequest := parsed.nextRequest
         previousRequest := parsed.previousRequest },
       none)

/-- Embedding of getNextPage (auth-refresh variant): guard, then transition. -/
def getNextPage (env : Env) (tr : Trace) (p : PagerState) :
    Trace × PagerState × Option PageError :=
  match p.nextRequest with
  | some req =>
    if p.hasNextPage then sendRequestAndHandleResponse env tr p req
    else (tr, p, some (.thrown "No next page available"))
  | none => (tr, p, some (.thrown "No next page available"))

/-- Embedding of getPreviousPage (auth-refresh variant). -/
def getPreviousPage (env : Env) (tr : Trace) (p : PagerState) :
    Trace × PagerState × Option PageError :=
  match p.previousRequest with
  | some req =>
    if p.hasPreviousPage then sendRequestAndHandleResponse env tr p req
    else (tr, p, some (.thrown "No previous page available"))
  | none => (tr, p, some (.thrown "No previous page available"))

/-- Embedding of createPayrocPager: send the initial request (without auth
refresh), fail with a descriptive reason on fetch failure, otherwise parse
and build the initial Page State. -/
def createPayrocPager (env : Env) (initialHttpRequest : FetcherArgs) :
    Trace × Except PageError PagerState :=
  let tr : Trace := { sent := [initialHttpRequest], authCalls := 0 }
  match env.fetch initialHttpRequest with
  | .error e => (tr, .error (.thrown ("Failed to fetch initial page: " ++ failureReason e)))
  | .ok (data, rawResponse) =>
    match parseHttpResponse initialHttpRequest data with
    | .error je => (tr, .error (.jsError je))
    | .ok parsed =>
      (tr, .ok
        { response := data
          rawResponse := rawResponse
          data := parsed.items
          hasNextPage := parsed.hasNextPage
          hasPreviousPage := parsed.hasPreviousPage
          nextRequest := parsed.nextRequest
          previousRequest := parsed.previousRequest })

/-- Iteration of a for..of loop over the data slot: arrays yield their
elements, any other value makes the loop throw. -/
def jsIterate : JValue → Except PageError (List JValue)
  | .arr xs => .ok xs
  | _ => .error (.thrown "not iterable")

/-- Loop of iterMessages after the first page: while hasNextPage, perform a
forward transition and yield the items of the new page.  The fuel argument
only bounds the number of unrollings; it is chosen larger than the page
count in every use. -/
def iterNextLoop (env : Env) : Nat → Trace → PagerState → Trace × Except PageError (List JValue)
  | 0, tr, _ => (tr, .error (.thrown "fuel exhausted"))
  | fuel + 1, tr, p =>
    if p.hasNextPage then
      match getNextPage env tr p with
      | (tr', p', none) =>
        match jsIterate p'.data with
        | .ok items =>
          match iterNextLoop env fuel tr' p' with
          | (tr'', .ok rest) => (tr'', .ok (items ++ rest))
          | (tr'', .error e) => (tr'', .error e)
        | .error e => (tr', .error e)
      | (tr', _, some e) => (tr', .error e)
    else (tr, .ok [])

/-- Embedding of iterMessages (auth-refresh variant): yield every item of
the current page, then every item of each following page. -/
def iterMessages (env : Env) (fuel : Nat) (tr : Trace) (p : PagerState) :
    Trace × Except PageError (List JValue) :=
  match jsIterate p.data with
  | .ok items =>
    match iterNextLoop env fuel tr p with
    | (tr', .ok rest) => (tr', .ok (items ++ rest))
    | (tr', .error e) => (tr', .error e)
  | .error e => (tr, .error e)

end AuthRefresh

namespace Pluggable

/-- Loop body of getLinkUri from the pluggable-parser variant: return the
href of the first link whose rel strictly equals the wanted relation,
whatever value that href is.  Property access on a null or undefined array
element throws. -/
def getLinkUriLoop (rel : String) : List JValue → Except JsError (Option JValue)
  | [] => .ok none
  | l :: ls =>
    match l.getField "rel" with
    | .error e => .error e
    | .ok (.str r) =>
      if r = rel then
        match l.getField "href" with
        | .error e => .error e
        | .ok h => .ok (some h)
      else getLinkUriLoop rel ls
    | .ok _ => getLinkUriLoop rel ls

/-- Embedding of getLinkUri (pluggable-parser variant): a missing, falsy or
non-array links field yields undefined; otherwise the array is scanned. -/
def getLinkUri (response : JValue) (rel : String) : Except JsError (Option JValue) :=
  match response.getField "links" with
  | .error e => .error e
  | .ok (.arr ls) => getLinkUriLoop rel ls
  | .ok _ => .ok none

/-- Embedding of cloneRequestWithNewUri (pluggable-parser variant): spread
the request and overwrite the url; the query parameters are not touched.
Request descriptors are objects in this model, so the non-object fallthrough
of the source is not represented. -/
def cloneRequestWithNewUri (request : FetcherArgs) (newUri : JValue) : FetcherArgs :=
  { request with url := newUri }

/-- Availability test of parsePayrocResponse: uri != null && uri !== "",
where the uri is the raw href value found in the links (or undefined when
no link matched). -/
def linkPresent : Option JValue → Bool
  | none => false
  | some h => !h.nullish && !h.isEmptyStr

/-- Result record of parsePayrocResponse (pluggable-parser variant). -/
structure Parsed where
  nextRequest : Option FetcherArgs
  hasNextPage : Bool
  previousRequest : Option FetcherArgs
  hasPreviousPage : Bool
  items : JValue

/-- Embedding of parsePayrocResponse: parse the previous link, then the next
link, then read the data field, defaulting a null or undefined data field to
an empty array. -/
def parsePayrocResponse (request : FetcherArgs) (response : JValue) : Except JsError Parsed :=
  match getLinkUri response "previous" with
  | .error e => .error e
  | .ok prevUri =>
    match getLinkUri response "next" with
    | .error e => .error e
    | .ok nextUri =>
      match response.getField "data" with
      | .error e => .error e
      | .ok d =>
        .ok { nextRequest :=
                if linkPresent nextUri then nextUri.map (cloneRequestWithNewUri request) else none
              hasNextPage := linkPresent nextUri
              previousRequest :=
                if linkPresent prevUri then prevUri.map (cloneRequestWithNewUri request) else none
              hasPreviousPage := linkPresent prevUri
              items := if d.nullish then JValue.arr [] else d }

/-- Output contract of a pluggable parser (PayrocPagerParser): follow-up
requests, availability flags, and an optional items array. -/
structure ParserOutput (TItem TRequest : Type) where
  nextRequest : Option TRequest
  hasNextPage : Bool
  previousRequest : Option TRequest
  hasPreviousPage : Bool
  items : Option (List TItem)

/-- Pluggable parser: a function of the request and the response (body plus
raw response); a thrown error is modelled as an Except error carrying the
message. -/
def PagerParse (TItem TRequest TResponse : Type) : Type :=
  TRequest → TResponse × RawResponse → Except String (ParserOutput TItem TRequest)

/-- Page State of the pluggable-parser pager.  The data slot holds an
Option so that the absence of a value (null or undefined in JavaScript) is
representable; the code always writes some array into it. -/
structure PagerState (TItem TRequest TResponse : Type) where
  response : TResponse
  rawResponse : RawResponse
  data : Option (List TItem)
  hasNextPage : Bool
  hasPreviousPage : Bool
  nextRequest : Option TRequest
  previousRequest : Option TRequest

/-- Observable interaction record of the pluggable-parser pager: every
request handed to sendRequest, in order. -/
structure Trace (TRequest : Type) where
  sent : List TRequest

/-- Embedding of PayrocPager.create: send the initial request, run the
parser, and build the initial Page State; a parser error aborts
construction. -/
def create {TItem TRequest TResponse : Type}
    (fetch : TRequest → TResponse × RawResponse)
    (parse : PagerParse TItem TRequest TResponse)
    (initialRequest : TRequest) :
    Trace TRequest × Except PageError (PagerState TItem TRequest TResponse) :=
  let tr : Trace TRequest := { sent := [initialRequest] }
  let dr := fetch initialRequest
  match parse initialRequest dr with
  | .error msg => (tr, .error (.thrown msg))
  | .ok parsed =>
    (tr, .ok
      { response := dr.1
        rawResponse := dr.2
        data := some (parsed.items.getD [])
        hasNextPage := parsed.hasNextPage
        hasPreviousPage := parsed.hasPreviousPage
        nextRequest := parsed.nextRequest
        previousRequest := parsed.previousRequest })

/-- Embedding of sendRequestAndHandleResponse (pluggable-parser variant):
fetch, parse, then replace every Page State field; a parser error is thrown
before any assignment, so the returned state is unchanged in that case. -/
def sendRequestAndHandleResponse {TItem TRequest TResponse : Type}
    (fetch : TRequest → TResponse × RawResponse)
    (parse : PagerParse TItem TRequest TResponse)
    (tr : Trace TRequest) (p : PagerState TItem TRequest TResponse) (request : TRequest) :
    Trace TRequest × PagerState TItem TRequest TResponse × Option PageError :=
  let tr : Trace TRequest := { sent := tr.sent ++ [request] }
  let dr := fetch request
  match parse request dr with
  | .error msg => (tr, p, some (.thrown msg))
  | .ok parsed =>
    (tr,
     { response := dr.1
       rawResponse := dr.2
       data := some (parsed.items.getD [])
       hasNextPage := parsed.hasNextPage
       hasPreviousPage := parsed.hasPreviousPage
       nextRequest := parsed.nextRequest
       previousRequest := parsed.previousRequest },
     none)

/-- Embedding of getNextPage (pluggable-parser variant). -/
def getNextPage {TItem TRequest TResponse : Type}
    (fetch : TRequest → TResponse × RawResponse)
    (parse : PagerParse TItem TRequest TResponse)
    (tr : Trace TRequest) (p : PagerState TItem TRequest TResponse) :
    Trace TRequest × PagerState TItem TRequest TResponse × Option PageError :=
  match p.nextRequest with
  | some req =>
    if p.hasNextPage then sendRequestAndHandleResponse fetch parse tr p req
    else (tr, p, some (.thrown "No next page available"))
  | none => (tr, p, some (.thrown "No next page available"))

/-- Embedding of getPreviousPage (pluggable-parser variant). -/
def getPreviousPage {TItem TRequest TResponse : Type}
    (fetch : TRequest → TResponse × RawResponse)
    (parse : PagerParse TItem TRequest TResponse)
    (tr : Trace TRequest) (p : PagerState TItem TRequest TResponse) :
    Trace TRequest × PagerState TItem TRequest TResponse × Option PageError :=
  match p.previousRequest with
  | some req =>
    if p.hasPreviousPage then sendRequestAndHandleResponse fetch parse tr p req
    else (tr, p, some (.thrown "No previous page available"))
  | none => (tr, p, some (.thrown "No previous page available"))

/-- Iteration of a for..of loop over the data slot: an absent value makes
the loop throw, otherwise the stored array yields its elements. -/
def jsIterate {TItem : Type} : Option (List TItem) → Except PageError (List TItem)
  | some xs => .ok xs
  | none => .error (.thrown "not iterable")

/-- Loop of iterMessages after the first page (pluggable-parser variant):
while hasNextPage, perform a forward transition and yield the items of the
new page.  The fuel argument only bounds the number of unrollings. -/
def iterNextLoop {TItem TRequest TResponse : Type}
    (fetch : TRequest → TResponse × RawResponse)
    (parse : PagerParse TItem TRequest TResponse) :
    Nat → Trace TRequest → PagerState TItem TRequest TResponse →
    Trace TRequest × Except PageError (List TItem)
  | 0, tr, _ => (tr, .error (.thrown "fuel exhausted"))
  | fuel + 1, tr, p =>
    if p.hasNextPage then
      match getNextPage fetch parse tr p with
      | (tr', p', none) =>
        match jsIterate p'.data with
        | .ok items =>
          match iterNextLoop fetch parse fuel tr' p' with
          | (tr'', .ok rest) => (tr'', .ok (items ++ rest))
          | (tr'', .error e) => (tr'', .error e)
        | .error e => (tr', .error e)
      | (tr', _, some e) => (tr', .error e)
    else (tr, .ok [])

/-- Embedding of iterMessages (pluggable-parser variant): yield every item
of the current page, then every item of each following page. -/
def iterMessages {TItem TRequest TResponse : Type}
    (fetch : TRequest → TResponse × RawResponse)
    (parse : PagerParse TItem TRequest TResponse)
    (fuel : Nat) (tr : Trace TRequest) (p : PagerState TItem TRequest TResponse) :
    Trace TRequest × Except PageError (List TItem) :=
  match jsIterate p.data with
  | .ok items =>
    match iterNextLoop fetch parse fuel tr p with
    | (tr', .ok rest) => (tr', .ok (items ++ rest))
    | (tr', .error e) => (tr', .error e)
  | .error e => (tr, .error e)

/-- Typed view of the default parser (createDefaultParser composed with
parsePayrocResponse) at item type JValue: the items value computed by the
source is the JavaScript value response.data ?? [], handed to the typed
interface through a TItem[] cast.  The cast is honest exactly when that
value is an array, which holds in every use below; a non-array value is
outside the typed interface and is mapped to an empty items list here. -/
def defaultParse (request : FetcherArgs) (dr : JValue × RawResponse) :
    Except String (ParserOutput JValue FetcherArgs) :=
  match parsePayrocResponse request dr.1 with
  | .error _ => .error "TypeError"
  | .ok o =>
    .ok { nextRequest := o.nextRequest
          hasNextPage := o.hasNextPage
          previousRequest := o.previousRequest
          hasPreviousPage := o.hasPreviousPage
          items := some (match o.items with | .arr xs => xs | _ => []) }

end Pluggable

/-- Wire shape of a well-formed link relation: an object with a string rel
and a string href, as produced by the API. -/
def mkLink (q : String × String) : JValue :=
  .obj [("rel", .str q.1), ("href", .str q.2)]

/-- First relation entry with the wanted rel and a non-empty href, over the
rel/href pairs of a well-formed links array (the selection the auth-refresh
getLinkUri performs). -/
def findRelNonEmpty (rel : String) : List (String × String) → Option String
  | [] => none
  | q :: ps => if q.1 = rel ∧ q.2 ≠ "" then some q.2 else findRelNonEmpty rel ps

/-- Href of the first relation entry with the wanted rel, over the rel/href
pairs of a well-formed links array (the selection the pluggable-parser
getLinkUri performs). -/
def findRelFirst (rel : String) : List (String × String) → Option String
  | [] => none
  | q :: ps => if q.1 = rel then some q.2 else findRelFirst rel ps

/-- Links value for which both parsers report no pagination: anything that
is not an array, or the empty array. -/
def degenerateLinks : JValue → Bool
  | .arr [] => true
  | .arr _ => false
  | _ => true

/-- Elements of the links array of a body, empty when the links field is
absent or not an array. -/
def linkElems (j : JValue) : List JValue :=
  match j.getField "links" with
  | .ok (.arr ls) => ls
  | _ => []

theorem length_pos_iff_ne_nil (s : String) : 0 < s.length ↔ s ≠ "" := by
  rw [show s.length = s.data.length from rfl, List.length_pos]
  constructor
  · intro h hs
    subst hs
    exact h rfl
  · intro h hd
    exact h (String.ext hd)

theorem getField_mkLink_rel (q : String × String) :
    (mkLink q).getField "rel" = .ok (.str q.1) := rfl

theorem getField_mkLink_href (q : String × String) :
    (mkLink q).getField "href" = .ok (.str q.2) := rfl

theorem findLink_map (rel : String) (ps : List (String × String)) :
    AuthRefresh.findLink rel (ps.map mkLink) = .ok (findRelNonEmpty rel ps) := by
  induction ps with
  | nil => rfl
  | cons q ps ih =>
    simp only [List.map_cons, AuthRefresh.findLink, getField_mkLink_rel, getField_mkLink_href,
      findRelNonEmpty]
    by_cases h1 : q.1 = rel
    · by_cases h2 : q.2 = ""
      · have : ¬ 0 < q.2.length := by
          rw [length_pos_iff_ne_nil]
          simp [h2]
        simp [h1, h2, this, ih]
      · have : 0 < q.2.length := (length_pos_iff_ne_nil q.2).mpr h2
        simp [h1, h2, this]
    · simp [h1, ih]

theorem getLinkUriLoop_map (rel : String) (ps : List (String × String)) :
    Pluggable.getLinkUriLoop rel (ps.map mkLink) = .ok ((findRelFirst rel ps).map JValue.str) := by
  induction ps with
  | nil => rfl
  | cons q ps ih =>
    simp only [List.map_cons, Pluggable.getLinkUriLoop, getField_mkLink_rel, getField_mkLink_href,
      findRelFirst]
    by_cases h1 : q.1 = rel
    · simp [h1]
    · simp [h1, ih]

theorem findRelNonEmpty_mem (rel h : String) (ps : List (String × String))
    (hf : findRelNonEmpty rel ps = some h) : (rel, h) ∈ ps ∧ h ≠ "" := by
  induction ps with
  | nil => simp [findRelNonEmpty] at hf
  | cons q ps ih =>
    rw [findRelNonEmpty] at hf
    by_cases hc : q.1 = rel ∧ q.2 ≠ ""
    · rw [if_pos hc] at hf
      obtain ⟨h1, h2⟩ := hc
      cases hf
      exact ⟨by simp [← h1], h2⟩
    · rw [if_neg hc] at hf
      obtain ⟨hm, hne⟩ := ih hf
      exact ⟨List.mem_cons_of_mem _ hm, hne⟩

theorem findRelNonEmpty_isSome (rel : String) (ps : List (String × String))
    (hex : ∃ q ∈ ps, q.1 = rel ∧ q.2 ≠ "") : (findRelNonEmpty rel ps).isSome = true := by
  induction ps with
  | nil => simp at hex
  | cons q ps ih =>
    rw [findRelNonEmpty]
    by_cases hc : q.1 = rel ∧ q.2 ≠ ""
    · simp [hc]
    · rw [if_neg hc]
      apply ih
      obtain ⟨q', hq', hcond⟩ := hex
      rcases List.mem_cons.mp hq' with h | h
      · exact absurd (h ▸ hcond) hc
      · exact ⟨q', h, hcond⟩

theorem getField_isOk (j : JValue) (k : String) (h : j.nullish = false) :
    ∃ v, j.getField k = .ok v := by
  cases j <;> simp_all [JValue.nullish, JValue.getField]

theorem findLink_isOk (rel : String) (ls : List JValue)
    (h : ∀ l ∈ ls, l.nullish = false) :
    ∃ u, AuthRefresh.findLink rel ls = .ok u := by
  induction ls with
  | nil => exact ⟨none, rfl⟩
  | cons l ls ih =>
    obtain ⟨ihu, ihh⟩ := ih (fun x hx => h x (List.mem_cons_of_mem _ hx))
    obtain ⟨v, hv⟩ := getField_isOk l "rel" (h l (List.mem_cons_self _ _))
    cases v with
    | str r =>
      by_cases hr : r = rel
      · obtain ⟨w, hw⟩ := getField_isOk l "href" (h l (List.mem_cons_self _ _))
        cases w with
        | str s =>
          by_cases hs : 0 < s.length
          · exact ⟨some s, by simp [AuthRefresh.findLink, hv, hw, hr, hs]⟩
          · exact ⟨ihu, by simp [AuthRefresh.findLink, hv, hw, hr, hs, ihh]⟩
        | null => exact ⟨ihu, by simp [AuthRefresh.findLink, hv, hw, hr, ihh]⟩
        | undefined => exact ⟨ihu, by simp [AuthRefresh.findLink, hv, hw, hr, ihh]⟩
        | bool b => exact ⟨ihu, by simp [AuthRefresh.findLink, hv, hw, hr, ihh]⟩
        | num n => exact ⟨ihu, by simp [AuthRefresh.findLink, hv, hw, hr, ihh]⟩
        | arr xs => exact ⟨ihu, by simp [AuthRefresh.findLink, hv, hw, hr, ihh]⟩
        | obj fs => exact ⟨ihu, by simp [AuthRefresh.findLink, hv, hw, hr, ihh]⟩
      · exact ⟨ihu, by simp [AuthRefresh.findLink, hv, hr, ihh]⟩
    | null => exact ⟨ihu, by simp [AuthRefresh.findLink, hv, ihh]⟩
    | undefined => exact ⟨ihu, by simp [AuthRefresh.findLink, hv, ihh]⟩
    | bool b => exact ⟨ihu, by simp [AuthRefresh.findLink, hv, ihh]⟩
    | num n => exact ⟨ihu, by simp [AuthRefresh.findLink, hv, ihh]⟩
    | arr xs => exact ⟨ihu, by simp [AuthRefresh.findLink, hv, ihh]⟩
    | obj fs => exact ⟨ihu, by simp [AuthRefresh.findLink, hv, ihh]⟩

theorem getLinkUriLoop_isOk (rel : String) (ls : List JValue)
    (h : ∀ l ∈ ls, l.nullish = false) :
    ∃ u, Pluggable.getLinkUriLoop rel ls = .ok u := by
  induction ls with
  | nil => exact ⟨none, rfl⟩
  | cons l ls ih =>
    obtain ⟨ihu, ihh⟩ := ih (fun x hx => h x (List.mem_cons_of_mem _ hx))
    obtain ⟨v, hv⟩ := getField_isOk l "rel" (h l (List.mem_cons_self _ _))
    cases v with
    | str r =>
      by_cases hr : r = rel
      · obtain ⟨w, hw⟩ := getField_isOk l "href" (h l (List.mem_cons_self _ _))
        exact ⟨some w, by simp [Pluggable.getLinkUriLoop, hv, hw, hr]⟩
      · exact ⟨ihu, by simp [Pluggable.getLinkUriLoop, hv, hr, ihh]⟩
    | null => exact ⟨ihu, by simp [Pluggable.getLinkUriLoop, hv, ihh]⟩
    | undefined => exact ⟨ihu, by simp [Pluggable.getLinkUriLoop, hv, ihh]⟩
    | bool b => exact ⟨ihu, by simp [Pluggable.getLinkUriLoop, hv, ihh]⟩
    | num n => exact ⟨ihu, by simp [Pluggable.getLinkUriLoop, hv, ihh]⟩
    | arr xs => exact ⟨ihu, by simp [Pluggable.getLinkUriLoop, hv, ihh]⟩
    | obj fs => exact ⟨ihu, by simp [Pluggable.getLinkUriLoop, hv, ihh]⟩

theorem getLinkUri_arr (j : JValue) (rel : String) (ls : List JValue)
    (h : j.getField "links" = .ok (.arr ls)) :
    AuthRefresh.getLinkUri j rel = AuthRefresh.findLink rel ls := by
  rw [AuthRefresh.getLinkUri, h]

theorem getLinkUri2_arr (j : JValue) (rel : String) (ls : List JValue)
    (h : j.getField "links" = .ok (.arr ls)) :
    Pluggable.getLinkUri j rel = Pluggable.getLinkUriLoop rel ls := by
  rw [Pluggable.getLinkUri, h]

theorem getLinkUri_degenerate (j : JValue) (rel : String) (v : JValue)
    (h : j.getField "links" = .ok v) (hv : degenerateLinks v = true) :
    AuthRefresh.getLinkUri j rel = .ok none := by
  rw [AuthRefresh.getLinkUri, h]
  cases v with
  | arr ls =>
    cases ls with
    | nil => rfl
    | cons x xs => simp [degenerateLinks] at hv
  | null => rfl
  | undefined => rfl
  | bool b => rfl
  | num n => rfl
  | str s => rfl
  | obj fs => rfl

theorem getLinkUri2_degenerate (j : JValue) (rel : String) (v : JValue)
    (h : j.getField "links" = .ok v) (hv : degenerateLinks v = true) :
    Pluggable.getLinkUri j rel = .ok none := by
  rw [Pluggable.getLinkUri, h]
  cases v with
  | arr ls =>
    cases ls with
    | nil => rfl
    | cons x xs => simp [degenerateLinks] at hv
  | null => rfl
  | undefined => rfl
  | bool b => rfl
  | num n => rfl
  | str s => rfl
  | obj fs => rfl

theorem parseHttpResponse_eval (r : FetcherArgs) (j : JValue) (pu nu : Option String) (d : JValue)
    (hp : AuthRefresh.getLinkUri j "previous" = .ok pu)
    (hn : AuthRefresh.getLinkUri j "next" = .ok nu)
    (hd : j.getField "data" = .ok d) :
    AuthRefresh.parseHttpResponse r j = .ok
      { nextRequest := AuthRefresh.deriveRequest r nu
        hasNextPage := nu.isSome
        previousRequest := AuthRefresh.deriveRequest r pu
        hasPreviousPage := pu.isSome
        items := if d.nullish then JValue.arr [] else d } := by
  rw [AuthRefresh.parseHttpResponse, hp, hn, hd]

theorem parsePayrocResponse_eval (r : FetcherArgs) (j : JValue) (pu nu : Option JValue) (d : JValue)
    (hp : Pluggable.getLinkUri j "previous" = .ok pu)
    (hn : Pluggable.getLinkUri j "next" = .ok nu)
    (hd : j.getField "data" = .ok d) :
    Pluggable.parsePayrocResponse r j = .ok
      { nextRequest :=
          if Pluggable.linkPresent nu then nu.map (Pluggable.cloneRequestWithNewUri r) else none
        hasNextPage := Pluggable.linkPresent nu
        previousRequest :=
          if Pluggable.linkPresent pu then pu.map (Pluggable.cloneRequestWithNewUri r) else none
        hasPreviousPage := Pluggable.linkPresent pu
        items := if d.nullish then JValue.arr [] else d } := by
  rw [Pluggable.parsePayrocResponse, hp, hn, hd]

theorem filter_nil_findRel (rel : String) (ps : List (String × String))
    (h : ps.filter (fun q => q.1 = rel) = []) :
    findRelFirst rel ps = none ∧ findRelNonEmpty rel ps = none := by
  induction ps with
  | nil => exact ⟨rfl, rfl⟩
  | cons q ps ih =>
    rw [List.filter_cons] at h
    by_cases hq : q.1 = rel
    · simp [hq] at h
    · have := ih (by simpa [hq] using h)
      constructor
      · rw [findRelFirst, if_neg hq]
        exact this.1
      · rw [findRelNonEmpty, if_neg (fun hc => hq hc.1)]
        exact this.2

theorem findRel_agree (rel : String) (ps : List (String × String))
    (h : (ps.filter (fun q => q.1 = rel)).length ≤ 1) :
    (findRelFirst rel ps = none → findRelNonEmpty rel ps = none) ∧
    (∀ v, findRelFirst rel ps = some v →
      findRelNonEmpty rel ps = if v = "" then none else some v) := by
  induction ps with
  | nil => exact ⟨fun _ => rfl, fun v hv => by simp [findRelFirst] at hv⟩
  | cons q ps ih =>
    rw [List.filter_cons] at h
    by_cases hq : q.1 = rel
    · rw [if_pos (by simpa using hq), List.length_cons] at h
      have hlen : (ps.filter (fun q => q.1 = rel)).length = 0 := by omega
      have hnil : ps.filter (fun q => q.1 = rel) = [] := List.length_eq_zero.mp hlen
      have hrest := filter_nil_findRel rel ps hnil
      constructor
      · intro hf
        rw [findRelFirst, if_pos hq] at hf
        exact absurd hf (by simp)
      · intro v hv
        rw [findRelFirst, if_pos hq] at hv
        cases hv
        by_cases he : q.2 = ""
        · rw [findRelNonEmpty, if_neg (fun hc => hc.2 he), hrest.2, if_pos he]
        · rw [findRelNonEmpty, if_pos ⟨hq, he⟩, if_neg he]
    · rw [if_neg (by simpa using hq)] at h
      have := ih h
      constructor
      · intro hf
        rw [findRelFirst, if_neg hq] at hf
        rw [findRelNonEmpty, if_neg (fun hc => hq hc.1)]
        exact this.1 hf
      · intro v hv
        rw [findRelFirst, if_neg hq] at hv
        rw [findRelNonEmpty, if_neg (fun hc => hq hc.1)]
        exact this.2 v hv

theorem hLookup_mergeHeaders_some (base extra : Headers) (k v : String)
    (h : hLookup extra k = some v) : hLookup (mergeHeaders base extra) k = some v := by
  unfold mergeHeaders
  induction base with
  | nil => simpa using h
  | cons p ps ih =>
    rw [List.filter_cons]
    by_cases hk : (hLookup extra p.1).isNone
    · rw [if_pos (by simpa using hk)]
      have hpk : p.1 ≠ k := by
        intro he
        rw [he, h] at hk
        simp at hk
      rw [List.cons_append, hLookup, if_neg hpk]
      exact ih
    · rw [if_neg (by simpa using hk)]
      exact ih

theorem hLookup_mergeHeaders_none (base extra : Headers) (k : String)
    (h : hLookup extra k = none) :
    hLookup (mergeHeaders base extra) k = hLookup base k := by
  unfold mergeHeaders
  induction base with
  | nil => simpa using h
  | cons p ps ih =>
    rw [List.filter_cons]
    by_cases hpk : p.1 = k
    · rw [if_pos (by simp [hpk, h])]
      rw [List.cons_append, hLookup, if_pos hpk, hLookup, if_pos hpk]
    · by_cases hk : (hLookup extra p.1).isNone
      · rw [if_pos (by simpa using hk)]
        rw [List.cons_append, hLookup, if_neg hpk, hLookup, if_neg hpk]
        exact ih
      · rw [if_neg (by simpa using hk)]
        rw [hLookup, if_neg hpk]
        exact ih

theorem findLink_some_ne (rel : String) (ls : List JValue) (s : String)
    (h : AuthRefresh.findLink rel ls = .ok (some s)) : s ≠ "" := by
  induction ls with
  | nil => simp [AuthRefresh.findLink] at h
  | cons l ls ih =>
    rw [AuthRefresh.findLink] at h
    cases hv : l.getField "rel" with
    | error e => simp only [hv] at h; exact absurd h (by simp)
    | ok v =>
      cases v with
      | str r =>
        simp only [hv] at h
        by_cases hr : r = rel
        · rw [if_pos hr] at h
          cases hw : l.getField "href" with
          | error e => simp only [hw] at h; exact absurd h (by simp)
          | ok w =>
            cases w with
            | str t =>
              simp only [hw] at h
              by_cases ht : 0 < t.length
              · rw [if_pos ht] at h
                simp only [Except.ok.injEq, Option.some.injEq] at h
                subst h
                exact (length_pos_iff_ne_nil t).mp ht
              · rw [if_neg ht] at h
                exact ih h
            | null => simp only [hw] at h; exact ih h
            | undefined => simp only [hw] at h; exact ih h
            | bool b => simp only [hw] at h; exact ih h
            | num n => simp only [hw] at h; exact ih h
            | arr xs => simp only [hw] at h; exact ih h
            | obj fs => simp only [hw] at h; exact ih h
        · rw [if_neg hr] at h
          exact ih h
      | null => simp only [hv] at h; exact ih h
      | undefined => simp only [hv] at h; exact ih h
      | bool b => simp only [hv] at h; exact ih h
      | num n => simp only [hv] at h; exact ih h
      | arr xs => simp only [hv] at h; exact ih h
      | obj fs => simp only [hv] at h; exact ih h

theorem getLinkUri_some_ne (j : JValue) (rel s : String)
    (h : AuthRefresh.getLinkUri j rel = .ok (some s)) : s ≠ "" := by
  rw [AuthRefresh.getLinkUri] at h
  cases hf : j.getField "links" with
  | error e => rw [hf] at h; simp at h
  | ok v =>
    rw [hf] at h
    cases v with
    | arr ls => exact findLink_some_ne rel ls s h
    | null => simp at h
    | undefined => simp at h
    | bool b => simp at h
    | num n => simp at h
    | str t => simp at h
    | obj fs => simp at h

theorem parse3_shape (r : FetcherArgs) (j : JValue) (o : AuthRefresh.Parsed)
    (ho : AuthRefresh.parseHttpResponse r j = .ok o) :
    ∃ pu nu d, AuthRefresh.getLinkUri j "previous" = .ok pu ∧
      AuthRefresh.getLinkUri j "next" = .ok nu ∧
      j.getField "data" = .ok d ∧
      o = { nextRequest := AuthRefresh.deriveRequest r nu
            hasNextPage := nu.isSome
            previousRequest := AuthRefresh.deriveRequest r pu
            hasPreviousPage := pu.isSome
            items := if d.nullish then JValue.arr [] else d } := by
  rw [AuthRefresh.parseHttpResponse] at ho
  cases hpu : AuthRefresh.getLinkUri j "previous" with
  | error e => rw [hpu] at ho; simp at ho
  | ok pu =>
    rw [hpu] at ho
    cases hnu : AuthRefresh.getLinkUri j "next" with
    | error e => rw [hnu] at ho; simp at ho
    | ok nu =>
      rw [hnu] at ho
      cases hd : j.getField "data" with
      | error e => rw [hd] at ho; simp at ho
      | ok d =>
        rw [hd] at ho
        simp only [Except.ok.injEq] at ho
        exact ⟨pu, nu, d, rfl, rfl, rfl, ho.symm⟩

theorem parse2_shape (r : FetcherArgs) (j : JValue) (o : Pluggable.Parsed)
    (ho : Pluggable.parsePayrocResponse r j = .ok o) :
    ∃ pu nu d, Pluggable.getLinkUri j "previous" = .ok pu ∧
      Pluggable.getLinkUri j "next" = .ok nu ∧
      j.getField "data" = .ok d ∧
      o = { nextRequest :=
              if Pluggable.linkPresent nu then nu.map (Pluggable.cloneRequestWithNewUri r) else none
            hasNextPage := Pluggable.linkPresent nu
            previousRequest :=
              if Pluggable.linkPresent pu then pu.map (Pluggable.cloneRequestWithNewUri r) else none
            hasPreviousPage := Pluggable.linkPresent pu
            items := if d.nullish then JValue.arr [] else d } := by
  rw [Pluggable.parsePayrocResponse] at ho
  cases hpu : Pluggable.getLinkUri j "previous" with
  | error e => rw [hpu] at ho; simp at ho
  | ok pu =>
    rw [hpu] at ho
    cases hnu : Pluggable.getLinkUri j "next" with
    | error e => rw [hnu] at ho; simp at ho
    | ok nu =>
      rw [hnu] at ho
      cases hd : j.getField "data" with
      | error e => rw [hd] at ho; simp at ho
      | ok d =>
        rw [hd] at ho
        simp only [Except.ok.injEq] at ho
        exact ⟨pu, nu, d, rfl, rfl, rfl, ho.symm⟩

theorem parse3_flags (r : FetcherArgs) (j : JValue) (o : AuthRefresh.Parsed)
    (ho : AuthRefresh.parseHttpResponse r j = .ok o) :
    o.hasNextPage = o.nextRequest.isSome ∧ o.hasPreviousPage = o.previousRequest.isSome := by
  obtain ⟨pu, nu, d, hpu, hnu, hd, ho⟩ := parse3_shape r j o ho
  subst ho
  constructor
  · cases nu with
    | none => rfl
    | some s =>
      have := getLinkUri_some_ne j "next" s hnu
      simp [AuthRefresh.deriveRequest, this]
  · cases pu with
    | none => rfl
    | some s =>
      have := getLinkUri_some_ne j "previous" s hpu
      simp [AuthRefresh.deriveRequest, this]

theorem parse2_flags (r : FetcherArgs) (j : JValue) (o : Pluggable.Parsed)
    (ho : Pluggable.parsePayrocResponse r j = .ok o) :
    o.hasNextPage = o.nextRequest.isSome ∧ o.hasPreviousPage = o.previousRequest.isSome := by
  obtain ⟨pu, nu, d, hpu, hnu, hd, ho⟩ := parse2_shape r j o ho
  subst ho
  constructor
  · cases hp : Pluggable.linkPresent nu with
    | true =>
      cases nu with
      | none => simp [Pluggable.linkPresent] at hp
      | some h => simp [hp]
    | false => simp [hp]
  · cases hp : Pluggable.linkPresent pu with
    | true =>
      cases pu with
      | none => simp [Pluggable.linkPresent] at hp
      | some h => simp [hp]
    | false => simp [hp]

theorem parse3_items (r : FetcherArgs) (j : JValue) (o : AuthRefresh.Parsed)
    (ho : AuthRefresh.parseHttpResponse r j = .ok o) :
    o.items.nullish = false ∧
    (∀ d, j.getField "data" = .ok d → (d.nullish = true ∨ d.isArray = true) →
      o.items.isArray = true) := by
  obtain ⟨pu, nu, d, hpu, hnu, hd, ho⟩ := parse3_shape r j o ho
  subst ho
  constructor
  · cases hdn : d.nullish with
    | true => simp [JValue.nullish]
    | false => simpa using hdn
  · intro d' hd' hds
    rw [hd] at hd'
    simp only [Except.ok.injEq] at hd'
    subst hd'
    rcases hds with hds | hds
    · simp [hds, JValue.isArray]
    · have hdn : d.nullish = false := by
        cases d <;> simp_all [JValue.isArray, JValue.nullish]
      simp [hdn, hds]

theorem parse2_items (r : FetcherArgs) (j : JValue) (o : Pluggable.Parsed)
    (ho : Pluggable.parsePayrocResponse r j = .ok o) :
    o.items.nullish = false ∧
    (∀ d, j.getField "data" = .ok d → (d.nullish = true ∨ d.isArray = true) →
      o.items.isArray = true) := by
  obtain ⟨pu, nu, d, hpu, hnu, hd, ho⟩ := parse2_shape r j o ho
  subst ho
  constructor
  · cases hdn : d.nullish with
    | true => simp [JValue.nullish]
    | false => simpa using hdn
  · intro d' hd' hds
    rw [hd] at hd'
    simp only [Except.ok.injEq] at hd'
    subst hd'
    rcases hds with hds | hds
    · simp [hds, JValue.isArray]
    · have hdn : d.nullish = false := by
        cases d <;> simp_all [JValue.isArray, JValue.nullish]
      simp [hdn, hds]

/-- Basic request descriptor used in concrete scenarios. -/
def plainReq : FetcherArgs :=
  { url := .str "https://api.example.com/items"
    method := "GET"
    headers := []
    queryParameters := none
    body := none
    timeoutMs := none }

/-- Request descriptor carrying a structured query-parameter map. -/
def reqQP : FetcherArgs :=
  { plainReq with queryParameters := some [("page", "1")] }

/-- Body with a single next link and an empty data array. -/
def bodyNextQP : JValue :=
  .obj [("data", .arr []),
        ("links", .arr [mkLink ("next", "https://api.example.com/items?page=2")])]

/-- C1 counterexample: on a response with a next relation with a non-empty
href, the pluggable-parser variant's default parser reports a next page but
the derived follow-up request keeps the prior request's query-parameter map
instead of clearing it. -/
theorem claim_C1_cex :
    (Pluggable.parsePayrocResponse reqQP bodyNextQP).map
        (fun o => (o.hasNextPage, o.nextRequest.map FetcherArgs.queryParameters)) =
      .ok (true, some (some [("page", "1")])) := rfl

/-- C1 (amended): over a well-formed links array (rel/href string pairs),
if some next relation has a non-empty href then the auth-refresh variant's
parser reports a next page and derives the follow-up request from the first
such href with the URI overwritten and the query-parameter map cleared; the
pluggable-parser variant, when the first next relation's href is non-empty,
also reports a next page but derives the follow-up request with only the
URI overwritten, keeping the query-parameter map. -/
theorem claim_C1 (r : FetcherArgs) (ps : List (String × String)) (j : JValue)
    (hn : j.nullish = false)
    (hl : j.getField "links" = .ok (.arr (ps.map mkLink))) :
    ((∃ q ∈ ps, q.1 = "next" ∧ q.2 ≠ "") → (findRelNonEmpty "next" ps).isSome = true) ∧
    (∀ h, findRelNonEmpty "next" ps = some h →
      ("next", h) ∈ ps ∧ h ≠ "" ∧
      (AuthRefresh.parseHttpResponse r j).map (fun o => (o.hasNextPage, o.nextRequest)) =
        .ok (true, some { r with url := .str h, queryParameters := none })) ∧
    (∀ h, findRelFirst "next" ps = some h → h ≠ "" →
      (Pluggable.parsePayrocResponse r j).map (fun o => (o.hasNextPage, o.nextRequest)) =
        .ok (true, some { r with url := .str h })) := by
  refine ⟨findRelNonEmpty_isSome "next" ps, ?_, ?_⟩
  · intro h hf
    obtain ⟨hmem, hne⟩ := findRelNonEmpty_mem "next" h ps hf
    refine ⟨hmem, hne, ?_⟩
    obtain ⟨d, hd⟩ := getField_isOk j "data" hn
    have hprev : AuthRefresh.getLinkUri j "previous" = .ok (findRelNonEmpty "previous" ps) := by
      rw [getLinkUri_arr j "previous" _ hl, findLink_map]
    have hnext : AuthRefresh.getLinkUri j "next" = .ok (some h) := by
      rw [getLinkUri_arr j "next" _ hl, findLink_map, hf]
    rw [parseHttpResponse_eval r j _ _ d hprev hnext hd]
    simp [Except.map, AuthRefresh.deriveRequest, hne, AuthRefresh.cloneRequestWithNewUri]
  · intro h hf hne
    obtain ⟨d, hd⟩ := getField_isOk j "data" hn
    have hprev : Pluggable.getLinkUri j "previous" =
        .ok ((findRelFirst "previous" ps).map JValue.str) := by
      rw [getLinkUri2_arr j "previous" _ hl, getLinkUriLoop_map]
    have hnext : Pluggable.getLinkUri j "next" = .ok (some (.str h)) := by
      rw [getLinkUri2_arr j "next" _ hl, getLinkUriLoop_map, hf]
      rfl
    rw [parsePayrocResponse_eval r j _ _ d hprev hnext hd]
    have hp : Pluggable.linkPresent (some (.str h)) = true := by
      simp [Pluggable.linkPresent, JValue.nullish, JValue.isEmptyStr, hne]
    simp [Except.map, hp, Pluggable.cloneRequestWithNewUri]

/-- Body with a single next link, used as parser input in witnesses. -/
def bodyNextOnly : JValue :=
  .obj [("links", .arr [mkLink ("next", "https://api.example.com/items?page=2")])]

theorem claim_C1_witness :
    ("next", "https://api.example.com/items?page=2") ∈
        [("next", "https://api.example.com/items?page=2")] ∧
    "https://api.example.com/items?page=2" ≠ "" ∧
    (AuthRefresh.parseHttpResponse reqQP bodyNextOnly).map
        (fun o => (o.hasNextPage, o.nextRequest)) =
      .ok (true, some { reqQP with
                          url := .str "https://api.example.com/items?page=2"
                          queryParameters := none }) :=
  (claim_C1 reqQP [("next", "https://api.example.com/items?page=2")] bodyNextOnly rfl rfl).2.1
    "https://api.example.com/items?page=2" rfl

/-- C7: whenever the links field of a (non-nullish) body is absent, falsy,
not an array, or an empty array, both default parsers report no next and no
previous page and derive no follow-up request; and whenever the data field
is absent (or null), a successful parse yields the empty items array rather
than an error. -/
theorem claim_C7 (r : FetcherArgs) (j : JValue) (hn : j.nullish = false) :
    (∀ links, j.getField "links" = .ok links → degenerateLinks links = true →
      (AuthRefresh.parseHttpResponse r j).map
          (fun o => (o.hasNextPage, o.hasPreviousPage, o.nextRequest, o.previousRequest)) =
        .ok (false, false, none, none) ∧
      (Pluggable.parsePayrocResponse r j).map
          (fun o => (o.hasNextPage, o.hasPreviousPage, o.nextRequest, o.previousRequest)) =
        .ok (false, false, none, none)) ∧
    (∀ o, AuthRefresh.parseHttpResponse r j = .ok o →
      ∀ d, j.getField "data" = .ok d → d.nullish = true → o.items = .arr []) ∧
    (∀ o, Pluggable.parsePayrocResponse r j = .ok o →
      ∀ d, j.getField "data" = .ok d → d.nullish = true → o.items = .arr []) := by
  refine ⟨?_, ?_, ?_⟩
  · intro links hlk hdeg
    obtain ⟨d, hd⟩ := getField_isOk j "data" hn
    constructor
    · rw [parseHttpResponse_eval r j none none d
        (getLinkUri_degenerate j "previous" links hlk hdeg)
        (getLinkUri_degenerate j "next" links hlk hdeg) hd]
      rfl
    · rw [parsePayrocResponse_eval r j none none d
        (getLinkUri2_degenerate j "previous" links hlk hdeg)
        (getLinkUri2_degenerate j "next" links hlk hdeg) hd]
      rfl
  · intro o ho d hd hdn
    obtain ⟨pu, nu, d', hpu, hnu, hd', ho'⟩ := parse3_shape r j o ho
    rw [hd] at hd'
    simp only [Except.ok.injEq] at hd'
    subst hd'
    subst ho'
    simp [hdn]
  · intro o ho d hd hdn
    obtain ⟨pu, nu, d', hpu, hnu, hd', ho'⟩ := parse2_shape r j o ho
    rw [hd] at hd'
    simp only [Except.ok.injEq] at hd'
    subst hd'
    subst ho'
    simp [hdn]

/-- Body without links and without data. -/
def bodyBare : JValue := .obj [("count", .num 0)]

theorem claim_C7_witness :
    (AuthRefresh.parseHttpResponse plainReq bodyBare).map
        (fun o => (o.hasNextPage, o.hasPreviousPage, o.nextRequest, o.previousRequest)) =
      .ok (false, false, none, none) ∧
    (Pluggable.parsePayrocResponse plainReq bodyBare).map
        (fun o => (o.hasNextPage, o.hasPreviousPage, o.nextRequest, o.previousRequest)) =
      .ok (false, false, none, none) :=
  (claim_C7 plainReq bodyBare rfl).1 .undefined rfl rfl

/-- C8 counterexample: both default parsers throw a TypeError on a null
body, and on a body whose links array contains a null element, so parsing
is not total over all decoded bodies. -/
theorem claim_C8_cex :
    AuthRefresh.parseHttpResponse plainReq .null = .error .typeError ∧
    Pluggable.parsePayrocResponse plainReq .null = .error .typeError ∧
    AuthRefresh.parseHttpResponse plainReq (.obj [("links", .arr [.null])]) =
      .error .typeError ∧
    Pluggable.parsePayrocResponse plainReq (.obj [("links", .arr [.null])]) =
      .error .typeError :=
  ⟨rfl, rfl, rfl, rfl⟩

/-- C8 (amended): both default parsers complete without raising on every
body that is not null or undefined and whose links array, when present,
contains no null or undefined element; arbitrarily shaped data and links
fields are otherwise tolerated. -/
theorem claim_C8 (r : FetcherArgs) (j : JValue) (hn : j.nullish = false)
    (hl : ∀ l ∈ linkElems j, l.nullish = false) :
    (AuthRefresh.parseHttpResponse r j).isOk = true ∧
    (Pluggable.parsePayrocResponse r j).isOk = true := by
  obtain ⟨lv, hlv⟩ := getField_isOk j "links" hn
  obtain ⟨d, hd⟩ := getField_isOk j "data" hn
  cases lv with
  | arr ls =>
    have hle : linkElems j = ls := by rw [linkElems, hlv]
    rw [hle] at hl
    obtain ⟨pu, hpu⟩ := findLink_isOk "previous" ls hl
    obtain ⟨nu, hnu⟩ := findLink_isOk "next" ls hl
    obtain ⟨pu2, hpu2⟩ := getLinkUriLoop_isOk "previous" ls hl
    obtain ⟨nu2, hnu2⟩ := getLinkUriLoop_isOk "next" ls hl
    constructor
    · rw [parseHttpResponse_eval r j pu nu d
        (by rw [getLinkUri_arr j "previous" ls hlv]; exact hpu)
        (by rw [getLinkUri_arr j "next" ls hlv]; exact hnu) hd]
      rfl
    · rw [parsePayrocResponse_eval r j pu2 nu2 d
        (by rw [getLinkUri2_arr j "previous" ls hlv]; exact hpu2)
        (by rw [getLinkUri2_arr j "next" ls hlv]; exact hnu2) hd]
      rfl
  | null =>
    exact ⟨by rw [parseHttpResponse_eval r j none none d
            (getLinkUri_degenerate j "previous" _ hlv rfl)
            (getLinkUri_degenerate j "next" _ hlv rfl) hd]; rfl,
          by rw [parsePayrocResponse_eval r j none none d
            (getLinkUri2_degenerate j "previous" _ hlv rfl)
            (getLinkUri2_degenerate j "next" _ hlv rfl) hd]; rfl⟩
  | undefined =>
    exact ⟨by rw [parseHttpResponse_eval r j none none d
            (getLinkUri_degenerate j "previous" _ hlv rfl)
            (getLinkUri_degenerate j "next" _ hlv rfl) hd]; rfl,
          by rw [parsePayrocResponse_eval r j none none d
            (getLinkUri2_degenerate j "previous" _ hlv rfl)
            (getLinkUri2_degenerate j "next" _ hlv rfl) hd]; rfl⟩
  | bool b =>
    exact ⟨by rw [parseHttpResponse_eval r j none none d
            (getLinkUri_degenerate j "previous" _ hlv rfl)
            (getLinkUri_degenerate j "next" _ hlv rfl) hd]; rfl,
          by rw [parsePayrocResponse_eval r j none none d
            (getLinkUri2_degenerate j "previous" _ hlv rfl)
            (getLinkUri2_degenerate j "next" _ hlv rfl) hd]; rfl⟩
  | num n =>
    exact ⟨by rw [parseHttpResponse_eval r j none none d
            (getLinkUri_degenerate j "previous" _ hlv rfl)
            (getLinkUri_degenerate j "next" _ hlv rfl) hd]; rfl,
          by rw [parsePayrocResponse_eval r j none none d
            (getLinkUri2_degenerate j "previous" _ hlv rfl)
            (getLinkUri2_degenerate j "next" _ hlv rfl) hd]; rfl⟩
  | str s =>
    exact ⟨by rw [parseHttpResponse_eval r j none none d
            (getLinkUri_degenerate j "previous" _ hlv rfl)
            (getLinkUri_degenerate j "next" _ hlv rfl) hd]; rfl,
          by rw [parsePayrocResponse_eval r j none none d
            (getLinkUri2_degenerate j "previous" _ hlv rfl)
            (getLinkUri2_degenerate j "next" _ hlv rfl) hd]; rfl⟩
  | obj fs =>
    exact ⟨by rw [parseHttpResponse_eval r j none none d
            (getLinkUri_degenerate j "previous" _ hlv rfl)
            (getLinkUri_degenerate j "next" _ hlv rfl) hd]; rfl,
          by rw [parsePayrocResponse_eval r j none none d
            (getLinkUri2_degenerate j "previous" _ hlv rfl)
            (getLinkUri2_degenerate j "next" _ hlv rfl) hd]; rfl⟩

theorem claim_C8_witness :
    (AuthRefresh.parseHttpResponse plainReq bodyNextOnly).isOk = true ∧
    (Pluggable.parsePayrocResponse plainReq bodyNextOnly).isOk = true :=
  claim_C8 plainReq bodyNextOnly rfl (by
    intro l hxl
    rw [show linkElems bodyNextOnly = [mkLink ("next", "https://api.example.com/items?page=2")]
      from rfl] at hxl
    simp only [List.mem_singleton] at hxl
    subst hxl
    rfl)

theorem relComponents (r : FetcherArgs) (rel : String) (ps : List (String × String))
    (h : (ps.filter (fun q => q.1 = rel)).length ≤ 1) :
    (findRelNonEmpty rel ps).isSome =
      Pluggable.linkPresent ((findRelFirst rel ps).map JValue.str) ∧
    (AuthRefresh.deriveRequest r (findRelNonEmpty rel ps)).map FetcherArgs.url =
      (if Pluggable.linkPresent ((findRelFirst rel ps).map JValue.str) then
         ((findRelFirst rel ps).map JValue.str).map (Pluggable.cloneRequestWithNewUri r)
       else none).map FetcherArgs.url ∧
    (∀ q, AuthRefresh.deriveRequest r (findRelNonEmpty rel ps) = some q →
      q.queryParameters = none) ∧
    (∀ q, (if Pluggable.linkPresent ((findRelFirst rel ps).map JValue.str) then
         ((findRelFirst rel ps).map JValue.str).map (Pluggable.cloneRequestWithNewUri r)
       else none) = some q → q.queryParameters = r.queryParameters) := by
  obtain ⟨ha1, ha2⟩ := findRel_agree rel ps h
  cases hf : findRelFirst rel ps with
  | none =>
    rw [ha1 hf]
    simp [AuthRefresh.deriveRequest, Pluggable.linkPresent]
  | some v =>
    rw [ha2 v hf]
    by_cases hv : v = ""
    · subst hv
      simp [AuthRefresh.deriveRequest, Pluggable.linkPresent, JValue.isEmptyStr, JValue.nullish]
    · rw [if_neg hv]
      have hp : Pluggable.linkPresent (some (.str v)) = true := by
        simp [Pluggable.linkPresent, JValue.nullish, JValue.isEmptyStr, hv]
      simp [AuthRefresh.deriveRequest, hv, hp, AuthRefresh.cloneRequestWithNewUri,
        Pluggable.cloneRequestWithNewUri]

/-- Body with two next links, the first with an empty href. -/
def bodyDupNext : JValue :=
  .obj [("links", .arr [mkLink ("next", ""),
                        mkLink ("next", "https://api.example.com/items?page=2")])]

/-- Body with a next link whose href is the number 42. -/
def bodyNumHref : JValue :=
  .obj [("links", .arr [.obj [("rel", .str "next"), ("href", .num 42)]])]

/-- C9 counterexample: the two default parsers disagree.  With a duplicated
next relation whose first href is empty the auth-refresh parser reports a
next page and the pluggable one does not; on an ordinary next link the
derived follow-up requests differ in their query-parameter field; with a
numeric href the pluggable parser reports a next page and the auth-refresh
one does not. -/
theorem claim_C9_cex :
    ((AuthRefresh.parseHttpResponse plainReq bodyDupNext).map (fun o => o.hasNextPage) =
        .ok true ∧
      (Pluggable.parsePayrocResponse plainReq bodyDupNext).map (fun o => o.hasNextPage) =
        .ok false) ∧
    ((AuthRefresh.parseHttpResponse reqQP bodyNextQP).map
        (fun o => o.nextRequest.map FetcherArgs.queryParameters) = .ok (some none) ∧
      (Pluggable.parsePayrocResponse reqQP bodyNextQP).map
        (fun o => o.nextRequest.map FetcherArgs.queryParameters) =
        .ok (some (some [("page", "1")]))) ∧
    ((AuthRefresh.parseHttpResponse plainReq bodyNumHref).map (fun o => o.hasNextPage) =
        .ok false ∧
      (Pluggable.parsePayrocResponse plainReq bodyNumHref).map (fun o => o.hasNextPage) =
        .ok true) :=
  ⟨⟨rfl, rfl⟩, ⟨rfl, rfl⟩, rfl, rfl⟩

/-- C9 (amended): over a well-formed links array of rel/href string pairs in
which next and previous each occur at most once, the two default parsers
agree on both availability flags, on the item list, and on the URIs of the
derived follow-up requests; the query-parameter fields of those requests
differ, the auth-refresh variant clearing them and the pluggable-parser
variant keeping the prior request's map. -/
theorem claim_C9 (r : FetcherArgs) (ps : List (String × String)) (j : JValue)
    (hn : j.nullish = false)
    (hl : j.getField "links" = .ok (.arr (ps.map mkLink)))
    (hone : (ps.filter (fun q => q.1 = "next")).length ≤ 1)
    (htwo : (ps.filter (fun q => q.1 = "previous")).length ≤ 1) :
    ∃ o3 o2, AuthRefresh.parseHttpResponse r j = .ok o3 ∧
      Pluggable.parsePayrocResponse r j = .ok o2 ∧
      o3.hasNextPage = o2.hasNextPage ∧
      o3.hasPreviousPage = o2.hasPreviousPage ∧
      o3.items = o2.items ∧
      o3.nextRequest.map FetcherArgs.url = o2.nextRequest.map FetcherArgs.url ∧
      o3.previousRequest.map FetcherArgs.url = o2.previousRequest.map FetcherArgs.url ∧
      (∀ q, o3.nextRequest = some q → q.queryParameters = none) ∧
      (∀ q, o2.nextRequest = some q → q.queryParameters = r.queryParameters) := by
  obtain ⟨d, hd⟩ := getField_isOk j "data" hn
  have hprev3 : AuthRefresh.getLinkUri j "previous" = .ok (findRelNonEmpty "previous" ps) := by
    rw [getLinkUri_arr j "previous" _ hl, findLink_map]
  have hnext3 : AuthRefresh.getLinkUri j "next" = .ok (findRelNonEmpty "next" ps) := by
    rw [getLinkUri_arr j "next" _ hl, findLink_map]
  have hprev2 : Pluggable.getLinkUri j "previous" =
      .ok ((findRelFirst "previous" ps).map JValue.str) := by
    rw [getLinkUri2_arr j "previous" _ hl, getLinkUriLoop_map]
  have hnext2 : Pluggable.getLinkUri j "next" =
      .ok ((findRelFirst "next" ps).map JValue.str) := by
    rw [getLinkUri2_arr j "next" _ hl, getLinkUriLoop_map]
  obtain ⟨hfn, hun, hqn3, hqn2⟩ := relComponents r "next" ps hone
  obtain ⟨hfp, hup, hqp3, hqp2⟩ := relComponents r "previous" ps htwo
  refine ⟨_, _, parseHttpResponse_eval r j _ _ d hprev3 hnext3 hd,
    parsePayrocResponse_eval r j _ _ d hprev2 hnext2 hd, hfn, hfp, rfl, hun, hup, hqn3, hqn2⟩

theorem claim_C9_witness :
    ∃ o3 o2, AuthRefresh.parseHttpResponse reqQP bodyNextOnly = .ok o3 ∧
      Pluggable.parsePayrocResponse reqQP bodyNextOnly = .ok o2 ∧
      o3.hasNextPage = o2.hasNextPage ∧
      o3.hasPreviousPage = o2.hasPreviousPage ∧
      o3.items = o2.items ∧
      o3.nextRequest.map FetcherArgs.url = o2.nextRequest.map FetcherArgs.url ∧
      o3.previousRequest.map FetcherArgs.url = o2.previousRequest.map FetcherArgs.url ∧
      (∀ q, o3.nextRequest = some q → q.queryParameters = none) ∧
      (∀ q, o2.nextRequest = some q → q.queryParameters = reqQP.queryParameters) :=
  claim_C9 reqQP [("next", "https://api.example.com/items?page=2")] bodyNextOnly rfl rfl
    (by decide) (by decide)

theorem createPayrocPager_ok (env : AuthRefresh.Env) (req : FetcherArgs)
    (tr : AuthRefresh.Trace) (p : AuthRefresh.PagerState)
    (h : AuthRefresh.createPayrocPager env req = (tr, .ok p)) :
    ∃ dd rr parsed, env.fetch req = .ok (dd, rr) ∧
      AuthRefresh.parseHttpResponse req dd = .ok parsed ∧
      p = { response := dd, rawResponse := rr, data := parsed.items
            hasNextPage := parsed.hasNextPage, hasPreviousPage := parsed.hasPreviousPage
            nextRequest := parsed.nextRequest, previousRequest := parsed.previousRequest } := by
  rw [AuthRefresh.createPayrocPager] at h
  cases hf : env.fetch req with
  | error e => rw [hf] at h; simp at h
  | ok dr =>
    obtain ⟨dd, rr⟩ := dr
    rw [hf] at h
    cases hp : AuthRefresh.parseHttpResponse req dd with
    | error je => simp only [hp] at h; simp at h
    | ok parsed =>
      simp only [hp] at h
      simp only [Prod.mk.injEq, Except.ok.injEq] at h
      exact ⟨dd, rr, parsed, rfl, hp, h.2.symm⟩

theorem sendRequestAndHandleResponse_ok (env : AuthRefresh.Env) (tr : AuthRefresh.Trace)
    (p : AuthRefresh.PagerState) (req : FetcherArgs) (tr' : AuthRefresh.Trace)
    (p' : AuthRefresh.PagerState)
    (h : AuthRefresh.sendRequestAndHandleResponse env tr p req = (tr', p', none)) :
    ∃ dd rr parsed, env.fetch (AuthRefresh.refreshAuth env tr req).1 = .ok (dd, rr) ∧
      AuthRefresh.parseHttpResponse (AuthRefresh.refreshAuth env tr req).1 dd = .ok parsed ∧
      p' = { response := dd, rawResponse := rr, data := parsed.items
             hasNextPage := parsed.hasNextPage, hasPreviousPage := parsed.hasPreviousPage
             nextRequest := parsed.nextRequest, previousRequest := parsed.previousRequest } := by
  simp only [AuthRefresh.sendRequestAndHandleResponse] at h
  cases hf : env.fetch (AuthRefresh.refreshAuth env tr req).1 with
  | error e => rw [hf] at h; simp at h
  | ok dr =>
    obtain ⟨dd, rr⟩ := dr
    rw [hf] at h
    cases hp : AuthRefresh.parseHttpResponse (AuthRefresh.refreshAuth env tr req).1 dd with
    | error je => simp only [hp] at h; simp at h
    | ok parsed =>
      simp only [hp] at h
      simp only [Prod.mk.injEq] at h
      exact ⟨dd, rr, parsed, rfl, hp, h.2.1.symm⟩

theorem create2_ok {TItem TRequest TResponse : Type}
    (fetch : TRequest → TResponse × RawResponse)
    (parse : Pluggable.PagerParse TItem TRequest TResponse)
    (req : TRequest) (tr : Pluggable.Trace TRequest)
    (p : Pluggable.PagerState TItem TRequest TResponse)
    (h : Pluggable.create fetch parse req = (tr, .ok p)) :
    ∃ o, parse req (fetch req) = .ok o ∧
      p = { response := (fetch req).1, rawResponse := (fetch req).2
            data := some (o.items.getD []), hasNextPage := o.hasNextPage
            hasPreviousPage := o.hasPreviousPage, nextRequest := o.nextRequest
            previousRequest := o.previousRequest } := by
  simp only [Pluggable.create] at h
  cases hp : parse req (fetch req) with
  | error msg => rw [hp] at h; simp at h
  | ok o =>
    rw [hp] at h
    simp only [Prod.mk.injEq, Except.ok.injEq] at h
    exact ⟨o, rfl, h.2.symm⟩

theorem send2_ok {TItem TRequest TResponse : Type}
    (fetch : TRequest → TResponse × RawResponse)
    (parse : Pluggable.PagerParse TItem TRequest TResponse)
    (tr : Pluggable.Trace TRequest) (p : Pluggable.PagerState TItem TRequest TResponse)
    (req : TRequest) (tr' : Pluggable.Trace TRequest)
    (p' : Pluggable.PagerState TItem TRequest TResponse)
    (h : Pluggable.sendRequestAndHandleResponse fetch parse tr p req = (tr', p', none)) :
    ∃ o, parse req (fetch req) = .ok o ∧
      p' = { response := (fetch req).1, rawResponse := (fetch req).2
             data := some (o.items.getD []), hasNextPage := o.hasNextPage
             hasPreviousPage := o.hasPreviousPage, nextRequest := o.nextRequest
             previousRequest := o.previousRequest } := by
  simp only [Pluggable.sendRequestAndHandleResponse] at h
  cases hp : parse req (fetch req) with
  | error msg => rw [hp] at h; simp at h
  | ok o =>
    rw [hp] at h
    simp only [Prod.mk.injEq] at h
    exact ⟨o, rfl, h.2.1.symm⟩

/-- Custom parser claiming a next page while returning no next request. -/
def badParse : Pluggable.PagerParse Unit Unit Unit :=
  fun _ _ => .ok { nextRequest := none, hasNextPage := true
                   previousRequest := none, hasPreviousPage := false, items := some [] }

/-- Trivial fetch function for the unit-typed pager. -/
def unitFetch : Unit → Unit × RawResponse := fun _ => ((), { status := 200 })

/-- C2 counterexample: with a custom parser the invariant fails; the pager
built from badParse has hasNextPage true while its next follow-up request
is absent. -/
theorem claim_C2_cex :
    (Pluggable.create unitFetch badParse ()).2.map
        (fun p => (p.hasNextPage, p.nextRequest.isSome)) = .ok (true, false) := rfl

/-- C2 (amended): both default parsers always pair each availability flag
with the presence of the matching follow-up request; consequently the Page
State of the auth-refresh pager satisfies the invariant after construction
and after every successful transition, and so does the pluggable-parser
pager whenever its parser's outputs satisfy it (a custom parser need not). -/
theorem claim_C2 :
    (∀ r j o, AuthRefresh.parseHttpResponse r j = .ok o →
      o.hasNextPage = o.nextRequest.isSome ∧ o.hasPreviousPage = o.previousRequest.isSome) ∧
    (∀ r j o, Pluggable.parsePayrocResponse r j = .ok o →
      o.hasNextPage = o.nextRequest.isSome ∧ o.hasPreviousPage = o.previousRequest.isSome) ∧
    (∀ env req tr p, AuthRefresh.createPayrocPager env req = (tr, .ok p) →
      p.hasNextPage = p.nextRequest.isSome ∧ p.hasPreviousPage = p.previousRequest.isSome) ∧
    (∀ env tr p req tr' p',
      AuthRefresh.sendRequestAndHandleResponse env tr p req = (tr', p', none) →
      p'.hasNextPage = p'.nextRequest.isSome ∧
        p'.hasPreviousPage = p'.previousRequest.isSome) ∧
    (∀ (TItem TRequest TResponse : Type)
        (fetch : TRequest → TResponse × RawResponse)
        (parse : Pluggable.PagerParse TItem TRequest TResponse),
      (∀ rq dr o, parse rq dr = .ok o →
        o.hasNextPage = o.nextRequest.isSome ∧ o.hasPreviousPage = o.previousRequest.isSome) →
      (∀ req tr p, Pluggable.create fetch parse req = (tr, .ok p) →
        p.hasNextPage = p.nextRequest.isSome ∧
          p.hasPreviousPage = p.previousRequest.isSome) ∧
      (∀ tr p req tr' p',
        Pluggable.sendRequestAndHandleResponse fetch parse tr p req = (tr', p', none) →
        p'.hasNextPage = p'.nextRequest.isSome ∧
          p'.hasPreviousPage = p'.previousRequest.isSome)) := by
  refine ⟨parse3_flags, parse2_flags, ?_, ?_, ?_⟩
  · intro env req tr p h
    obtain ⟨dd, rr, parsed, hf, hp, hps⟩ := createPayrocPager_ok env req tr p h
    subst hps
    exact parse3_flags req dd parsed hp
  · intro env tr p req tr' p' h
    obtain ⟨dd, rr, parsed, hf, hp, hps⟩ := sendRequestAndHandleResponse_ok env tr p req tr' p' h
    subst hps
    exact parse3_flags _ dd parsed hp
  · intro TItem TRequest TResponse fetch parse hinv
    constructor
    · intro req tr p h
      obtain ⟨o, hp, hps⟩ := create2_ok fetch parse req tr p h
      subst hps
      exact hinv req (fetch req) o hp
    · intro tr p req tr' p' h
      obtain ⟨o, hp, hps⟩ := send2_ok fetch parse tr p req tr' p' h
      subst hps
      exact hinv req (fetch req) o hp

theorem claim_C2_witness :
    AuthRefresh.parseHttpResponse plainReq bodyNextOnly =
      .ok { nextRequest := some { plainReq with
                                    url := .str "https://api.example.com/items?page=2"
                                    queryParameters := none }
            hasNextPage := true
            previousRequest := none
            hasPreviousPage := false
            items := .arr [] } ∧
    (true : Bool) = (some { plainReq with
                              url := .str "https://api.example.com/items?page=2"
                              queryParameters := none } : Option FetcherArgs).isSome ∧
    (false : Bool) = (none : Option FetcherArgs).isSome :=
  ⟨rfl, (claim_C2.1 plainReq bodyNextOnly _ rfl).1, (claim_C2.1 plainReq bodyNextOnly _ rfl).2⟩

/-- C3: when the page fetch of a getNextPage or getPreviousPage call fails,
the call throws an error whose message is derived from the failure kind
(the HTTP status when status-based, otherwise the transport reason) and the
whole Page State is returned unchanged; only the interaction trace records
the attempted request. -/
theorem claim_C3 (env : AuthRefresh.Env) (tr : AuthRefresh.Trace) (p : AuthRefresh.PagerState)
    (req : FetcherArgs) (e : AuthRefresh.FetcherError)
    (hfail : env.fetch (AuthRefresh.refreshAuth env tr req).1 = .error e) :
    (p.nextRequest = some req → p.hasNextPage = true →
      AuthRefresh.getNextPage env tr p =
        ({ (AuthRefresh.refreshAuth env tr req).2 with
             sent := (AuthRefresh.refreshAuth env tr req).2.sent ++
               [(AuthRefresh.refreshAuth env tr req).1] },
         p, some (.thrown ("Failed to fetch page: " ++ AuthRefresh.failureReason e)))) ∧
    (p.previousRequest = some req → p.hasPreviousPage = true →
      AuthRefresh.getPreviousPage env tr p =
        ({ (AuthRefresh.refreshAuth env tr req).2 with
             sent := (AuthRefresh.refreshAuth env tr req).2.sent ++
               [(AuthRefresh.refreshAuth env tr req).1] },
         p, some (.thrown ("Failed to fetch page: " ++ AuthRefresh.failureReason e)))) := by
  constructor
  · intro hnr hhn
    rw [AuthRefresh.getNextPage, hnr]
    simp only [hhn, if_true]
    simp only [AuthRefresh.sendRequestAndHandleResponse, hfail]
  · intro hpr hhp
    rw [AuthRefresh.getPreviousPage, hpr]
    simp only [hhp, if_true]
    simp only [AuthRefresh.sendRequestAndHandleResponse, hfail]

/-- Environment whose fetch always fails with HTTP 500. -/
def envFail : AuthRefresh.Env :=
  { fetch := fun _ => .error { reason := "status-code", statusCode := 500 }, auth := none }

/-- Pager state holding follow-up requests in both directions. -/
def pBoth : AuthRefresh.PagerState :=
  { response := .obj [], rawResponse := { status := 200 }, data := .arr []
    hasNextPage := true, hasPreviousPage := true
    nextRequest := some reqQP, previousRequest := some reqQP }

/-- Empty interaction trace. -/
def trEmpty : AuthRefresh.Trace := { sent := [], authCalls := 0 }

theorem claim_C3_witness :
    AuthRefresh.getNextPage envFail trEmpty pBoth =
      ({ sent := [reqQP], authCalls := 0 }, pBoth,
       some (.thrown "Failed to fetch page: HTTP 500")) :=
  (claim_C3 envFail trEmpty pBoth reqQP { reason := "status-code", statusCode := 500 } rfl).1
    rfl rfl

/-- C6: calling getNextPage with hasNextPage false (or getPreviousPage with
hasPreviousPage false) throws the dedicated no-page error, leaves the Page
State unchanged and hands nothing to the fetcher, in both pager variants;
and the no-page messages differ from every transport-failure message. -/
theorem claim_C6 :
    (∀ env tr (p : AuthRefresh.PagerState), p.hasNextPage = false →
      AuthRefresh.getNextPage env tr p = (tr, p, some (.thrown "No next page available"))) ∧
    (∀ env tr (p : AuthRefresh.PagerState), p.hasPreviousPage = false →
      AuthRefresh.getPreviousPage env tr p =
        (tr, p, some (.thrown "No previous page available"))) ∧
    (∀ (TItem TRequest TResponse : Type)
        (fetch : TRequest → TResponse × RawResponse)
        (parse : Pluggable.PagerParse TItem TRequest TResponse)
        tr (p : Pluggable.PagerState TItem TRequest TResponse), p.hasNextPage = false →
      Pluggable.getNextPage fetch parse tr p =
        (tr, p, some (.thrown "No next page available"))) ∧
    (∀ (TItem TRequest TResponse : Type)
        (fetch : TRequest → TResponse × RawResponse)
        (parse : Pluggable.PagerParse TItem TRequest TResponse)
        tr (p : Pluggable.PagerState TItem TRequest TResponse), p.hasPreviousPage = false →
      Pluggable.getPreviousPage fetch parse tr p =
        (tr, p, some (.thrown "No previous page available"))) ∧
    (∀ s, PageError.thrown "No next page available" ≠
      PageError.thrown ("Failed to fetch page: " ++ s)) ∧
    (∀ s, PageError.thrown "No previous page available" ≠
      PageError.thrown ("Failed to fetch page: " ++ s)) := by
  refine ⟨?_, ?_, ?_, ?_, ?_, ?_⟩
  · intro env tr p h
    rw [AuthRefresh.getNextPage]
    cases hn : p.nextRequest with
    | none => rfl
    | some req => simp [h]
  · intro env tr p h
    rw [AuthRefresh.getPreviousPage]
    cases hn : p.previousRequest with
    | none => rfl
    | some req => simp [h]
  · intro TItem TRequest TResponse fetch parse tr p h
    rw [Pluggable.getNextPage]
    cases hn : p.nextRequest with
    | none => rfl
    | some req => simp [h]
  · intro TItem TRequest TResponse fetch parse tr p h
    rw [Pluggable.getPreviousPage]
    cases hn : p.previousRequest with
    | none => rfl
    | some req => simp [h]
  · intro s h
    simp only [PageError.thrown.injEq] at h
    have hd := congrArg String.data h
    rw [String.data_append] at hd
    simp at hd
  · intro s h
    simp only [PageError.thrown.injEq] at h
    have hd := congrArg String.data h
    rw [String.data_append] at hd
    simp at hd

/-- Pager state with no pages in either direction. -/
def pNone : AuthRefresh.PagerState :=
  { response := .obj [], rawResponse := { status := 200 }, data := .arr []
    hasNextPage := false, hasPreviousPage := false
    nextRequest := none, previousRequest := none }

theorem claim_C6_witness :
    AuthRefresh.getNextPage envFail trEmpty pNone =
      (trEmpty, pNone, some (.thrown "No next page available")) ∧
    AuthRefresh.getPreviousPage envFail trEmpty pNone =
      (trEmpty, pNone, some (.thrown "No previous page available")) ∧
    PageError.thrown "No next page available" ≠
      PageError.thrown ("Failed to fetch page: " ++ "HTTP 500") :=
  ⟨claim_C6.1 envFail trEmpty pNone rfl,
   claim_C6.2.1 envFail trEmpty pNone rfl,
   claim_C6.2.2.2.2.1 "HTTP 500"⟩

/-- C5: with an auth provider configured, the request a transition hands to
the fetcher is the stored follow-up request with only its headers replaced
by the merge of its own headers with the provider's freshly returned
(defined) headers, the refreshed values winning on their names and all
other headers and request fields preserved; the provider is invoked exactly
once per transition and the sent request is the one the trace records. -/
theorem claim_C5 (env : AuthRefresh.Env) (tr : AuthRefresh.Trace) (p : AuthRefresh.PagerState)
    (req : FetcherArgs) (a : Nat → AuthRequest) (hauth : env.auth = some a) :
    (AuthRefresh.refreshAuth env tr req).1.url = req.url ∧
    (AuthRefresh.refreshAuth env tr req).1.method = req.method ∧
    (AuthRefresh.refreshAuth env tr req).1.queryParameters = req.queryParameters ∧
    (AuthRefresh.refreshAuth env tr req).1.body = req.body ∧
    (AuthRefresh.refreshAuth env tr req).1.timeoutMs = req.timeoutMs ∧
    (AuthRefresh.refreshAuth env tr req).1.headers =
      mergeHeaders req.headers (mergeOnlyDefinedHeaders (a tr.authCalls).headers) ∧
    (∀ k v, hLookup (mergeOnlyDefinedHeaders (a tr.authCalls).headers) k = some v →
      hLookup (AuthRefresh.refreshAuth env tr req).1.headers k = some v) ∧
    (∀ k, hLookup (mergeOnlyDefinedHeaders (a tr.authCalls).headers) k = none →
      hLookup (AuthRefresh.refreshAuth env tr req).1.headers k = hLookup req.headers k) ∧
    (AuthRefresh.sendRequestAndHandleResponse env tr p req).1.sent =
      tr.sent ++ [(AuthRefresh.refreshAuth env tr req).1] ∧
    (AuthRefresh.sendRequestAndHandleResponse env tr p req).1.authCalls = tr.authCalls + 1 := by
  have hr : AuthRefresh.refreshAuth env tr req =
      ({ req with
           headers := mergeHeaders req.headers (mergeOnlyDefinedHeaders (a tr.authCalls).headers) },
       { tr with authCalls := tr.authCalls + 1 }) := by
    rw [AuthRefresh.refreshAuth, hauth]
  refine ⟨by rw [hr], by rw [hr], by rw [hr], by rw [hr], by rw [hr], by rw [hr], ?_, ?_, ?_, ?_⟩
  · intro k v hk
    rw [hr]
    exact hLookup_mergeHeaders_some _ _ _ _ hk
  · intro k hk
    rw [hr]
    exact hLookup_mergeHeaders_none _ _ _ hk
  · simp only [AuthRefresh.sendRequestAndHandleResponse]
    cases hf : env.fetch (AuthRefresh.refreshAuth env tr req).1 with
    | error e => simp [hr]
    | ok dr =>
      obtain ⟨dd, rr⟩ := dr
      cases hp : AuthRefresh.parseHttpResponse (AuthRefresh.refreshAuth env tr req).1 dd with
      | error je => rw [hr] at hp; simp [hp, hr]
      | ok parsed => rw [hr] at hp; simp [hp, hr]
  · simp only [AuthRefresh.sendRequestAndHandleResponse]
    cases hf : env.fetch (AuthRefresh.refreshAuth env tr req).1 with
    | error e => simp [hr]
    | ok dr =>
      obtain ⟨dd, rr⟩ := dr
      cases hp : AuthRefresh.parseHttpResponse (AuthRefresh.refreshAuth env tr req).1 dd with
      | error je => rw [hr] at hp; simp [hp, hr]
      | ok parsed => rw [hr] at hp; simp [hp, hr]

/-- Auth provider returning a fresh bearer token on each invocation. -/
def tokenAuth : Nat → AuthRequest :=
  fun n => { headers := [("authorization", some ("Bearer token-" ++ toString (n + 1)))] }

/-- Environment with the token auth provider and an always-failing fetch. -/
def envAuth : AuthRefresh.Env :=
  { fetch := fun _ => .error { reason := "timeout", statusCode := 0 }, auth := some tokenAuth }

/-- Stored follow-up request carrying a stale authorization header and a
custom header. -/
def reqStale : FetcherArgs :=
  { plainReq with headers := [("authorization", "Bearer stale"), ("x-custom", "v1")] }

theorem claim_C5_witness :
    hLookup (AuthRefresh.refreshAuth envAuth trEmpty reqStale).1.headers "authorization" =
      some "Bearer token-1" ∧
    hLookup (AuthRefresh.refreshAuth envAuth trEmpty reqStale).1.headers "x-custom" =
      hLookup reqStale.headers "x-custom" ∧
    (AuthRefresh.sendRequestAndHandleResponse envAuth trEmpty pBoth reqStale).1.authCalls =
      trEmpty.authCalls + 1 :=
  ⟨(claim_C5 envAuth trEmpty pBoth reqStale tokenAuth rfl).2.2.2.2.2.2.1
      "authorization" "Bearer token-1" rfl,
   (claim_C5 envAuth trEmpty pBoth reqStale tokenAuth rfl).2.2.2.2.2.2.2.1 "x-custom" rfl,
   (claim_C5 envAuth trEmpty pBoth reqStale tokenAuth rfl).2.2.2.2.2.2.2.2.2⟩

/-- Item of the mock series pages. -/
def itemJ (s : String) : JValue := .obj [("id", .str s)]

/-- First page of the 3-page mock series: one item, a next link. -/
def c4page1 : JValue :=
  .obj [("data", .arr [itemJ "1"]),
        ("links", .arr [mkLink ("next", "https://api.example.com/items?page=2")])]

/-- Second page of the 3-page mock series: one item, a next link. -/
def c4page2 : JValue :=
  .obj [("data", .arr [itemJ "2"]),
        ("links", .arr [mkLink ("next", "https://api.example.com/items?page=3")])]

/-- Last page of the 3-page mock series: one item, no links. -/
def c4page3 : JValue :=
  .obj [("data", .arr [itemJ "3"]), ("links", .arr [])]

/-- Mock fetch serving the 3-page series by URI. -/
def c4fetch (r : FetcherArgs) : Except AuthRefresh.FetcherError (JValue × RawResponse) :=
  match r.url with
  | .str s =>
    if s = "https://api.example.com/items" then .ok (c4page1, { status := 200 })
    else if s = "https://api.example.com/items?page=2" then .ok (c4page2, { status := 200 })
    else if s = "https://api.example.com/items?page=3" then .ok (c4page3, { status := 200 })
    else .error { reason := "connection-error", statusCode := 0 }
  | _ => .error { reason := "connection-error", statusCode := 0 }

/-- Environment serving the 3-page series (auth-refresh pager). -/
def c4env : AuthRefresh.Env := { fetch := c4fetch, auth := none }

/-- Construction followed by full item iteration of the auth-refresh pager
over the 3-page series: the items yielded and the total number of fetch
calls, or none if anything failed. -/
def c4run : Option (List JValue × Nat) :=
  match AuthRefresh.createPayrocPager c4env plainReq with
  | (tr, .ok p) =>
    match AuthRefresh.iterMessages c4env 9 tr p with
    | (tr', .ok items) => some (items, tr'.sent.length)
    | (_, .error _) => none
  | (_, .error _) => none

/-- Mock fetch of the pluggable-parser pager for the same series. -/
def c4fetch2 (r : FetcherArgs) : JValue × RawResponse :=
  match r.url with
  | .str s =>
    if s = "https://api.example.com/items" then (c4page1, { status := 200 })
    else if s = "https://api.example.com/items?page=2" then (c4page2, { status := 200 })
    else if s = "https://api.example.com/items?page=3" then (c4page3, { status := 200 })
    else (.null, { status := 404 })
  | _ => (.null, { status := 404 })

/-- Construction followed by full item iteration of the pluggable-parser
pager with its default parser over the 3-page series. -/
def c4run2 : Option (List JValue × Nat) :=
  match Pluggable.create c4fetch2 Pluggable.defaultParse plainReq with
  | (tr, .ok p) =>
    match Pluggable.iterMessages c4fetch2 Pluggable.defaultParse 9 tr p with
    | (tr', .ok items) => some (items, tr'.sent.length)
    | (_, .error _) => none
  | (_, .error _) => none

/-- C4: iterating the per-item sequence over the 3-page mock series yields
the three items in page order with exactly three fetch calls in total (the
initial fetch plus two transitions, none beyond the last page), in both
pager variants. -/
theorem claim_C4 :
    c4run = some ([itemJ "1", itemJ "2", itemJ "3"], 3) ∧
    c4run2 = some ([itemJ "1", itemJ "2", itemJ "3"], 3) :=
  ⟨rfl, rfl⟩

/-- Environment whose single response carries a numeric data field. -/
def envNumData : AuthRefresh.Env :=
  { fetch := fun _ => .ok (.obj [("data", .num 5), ("links", .arr [])], { status := 200 })
    auth := none }

/-- C10 counterexample: construction succeeds against a response whose data
field is the number 5, and the pager's data slot then holds that number,
not an array. -/
theorem claim_C10_cex :
    (AuthRefresh.createPayrocPager envNumData plainReq).2.map
        (fun p => (p.data.isArray, p.data)) = .ok (false, .num 5) := rfl

/-- C10 (amended): the data slot is never null or undefined: the
pluggable-parser pager stores a present array after construction and after
every successful transition with any parser (an omitted items field becomes
the empty array), and the auth-refresh pager's data slot is never nullish;
it is an array whenever the response's data field is absent, null, or
itself an array, while a non-array data value is stored as-is. -/
theorem claim_C10 :
    (∀ (TItem TRequest TResponse : Type)
        (fetch : TRequest → TResponse × RawResponse)
        (parse : Pluggable.PagerParse TItem TRequest TResponse)
        req tr (p : Pluggable.PagerState TItem TRequest TResponse),
      Pluggable.create fetch parse req = (tr, .ok p) → p.data.isSome = true) ∧
    (∀ (TItem TRequest TResponse : Type)
        (fetch : TRequest → TResponse × RawResponse)
        (parse : Pluggable.PagerParse TItem TRequest TResponse)
        tr (p : Pluggable.PagerState TItem TRequest TResponse) req tr' p',
      Pluggable.sendRequestAndHandleResponse fetch parse tr p req = (tr', p', none) →
      p'.data.isSome = true) ∧
    (∀ env req tr p, AuthRefresh.createPayrocPager env req = (tr, .ok p) →
      p.data.nullish = false) ∧
    (∀ env tr p req tr' p',
      AuthRefresh.sendRequestAndHandleResponse env tr p req = (tr', p', none) →
      p'.data.nullish = false) ∧
    (∀ r j o, AuthRefresh.parseHttpResponse r j = .ok o →
      o.items.nullish = false ∧
      (∀ d, j.getField "data" = .ok d → (d.nullish = true ∨ d.isArray = true) →
        o.items.isArray = true)) ∧
    (∀ r j o, Pluggable.parsePayrocResponse r j = .ok o →
      o.items.nullish = false ∧
      (∀ d, j.getField "data" = .ok d → (d.nullish = true ∨ d.isArray = true) →
        o.items.isArray = true)) := by
  refine ⟨?_, ?_, ?_, ?_, parse3_items, parse2_items⟩
  · intro TItem TRequest TResponse fetch parse req tr p h
    obtain ⟨o, hp, hps⟩ := create2_ok fetch parse req tr p h
    subst hps
    rfl
  · intro TItem TRequest TResponse fetch parse tr p req tr' p' h
    obtain ⟨o, hp, hps⟩ := send2_ok fetch parse tr p req tr' p' h
    subst hps
    rfl
  · intro env req tr p h
    obtain ⟨dd, rr, parsed, hf, hp, hps⟩ := createPayrocPager_ok env req tr p h
    subst hps
    exact (parse3_items req dd parsed hp).1
  · intro env tr p req tr' p' h
    obtain ⟨dd, rr, parsed, hf, hp, hps⟩ := sendRequestAndHandleResponse_ok env tr p req tr' p' h
    subst hps
    exact (parse3_items _ dd parsed hp).1

theorem claim_C10_witness :
    (AuthRefresh.createPayrocPager c4env plainReq).2 =
      .ok { response := c4page1
            rawResponse := { status := 200 }
            data := .arr [itemJ "1"]
            hasNextPage := true
            hasPreviousPage := false
            nextRequest := some { plainReq with
                                    url := .str "https://api.example.com/items?page=2"
                                    queryParameters := none }
            previousRequest := none } ∧
    JValue.nullish (.arr [itemJ "1"]) = false :=
  ⟨rfl, claim_C10.2.2.1 c4env plainReq { sent := [plainReq], authCalls := 0 } _ rfl⟩
